import Mathlib

/-!
Verification of the Workforce-Management-System rules engine.

Shallow embedding of the TypeScript sources:
  - src/WorkForceNavigator/src/utils/validation.ts   (JobValidation, DataSanitizer)
  - src/WorkForceNavigator/src/services/index.web.ts (JobService)

Modelling conventions:
  - JS strings used as free text are List Char; identifiers / enum-valued
    strings are String.
  - JS numbers that carry quantities are Rat; Firestore timestamps are Nat.
  - JS NaN arising from 0/0 in the recommendation scorer is modelled by
    Option Rat with none standing for NaN (jsDiv below).
  - The floating-point haversine distance is not exactly embeddable; the
    query/scoring layer is therefore parametrised by a distance oracle
    (dist : Rat x Rat -> Rat x Rat -> Rat), and the mathematical haversine
    formula itself is modelled over the real numbers for its own claims.
  - Async/await and the Firestore store are modelled by explicit state
    passing over a Db value; a thrown Error is Except.error.
-/

/-- JobStatus enum from src/types/job.ts. -/
inductive JobStatus
  | pending
  | assigned
  | in_progress
  | completed
  | cancelled
  | on_hold
deriving DecidableEq, Repr, Fintype

/-- JobPriority enum from src/types/job.ts. -/
inductive JobPriority
  | low
  | medium
  | high
  | urgent
deriving DecidableEq, Repr, Fintype

/-- JobType enum from src/types/job.ts. -/
inductive JobType
  | installation
  | repair
  | maintenance
  | inspection
  | upgrade
  | emergency
deriving DecidableEq, Repr, Fintype

/-- The string value of a JobStatus (the TS enum members are these strings). -/
def statusText : JobStatus → String
  | .pending => "pending"
  | .assigned => "assigned"
  | .in_progress => "in_progress"
  | .completed => "completed"
  | .cancelled => "cancelled"
  | .on_hold => "on_hold"

/-- ValidationResult from src/utils/validation.ts. -/
structure ValidationResult where
  isValid : Bool
  errors : List String
deriving DecidableEq, Repr

/-- The validTransitions table inside JobValidation.validateStatusTransition
(src/utils/validation.ts lines 104-111). -/
def validTransitions : JobStatus → List JobStatus
  | .pending => [.assigned, .cancelled]
  | .assigned => [.in_progress, .cancelled, .on_hold]
  | .in_progress => [.completed, .on_hold, .cancelled]
  | .on_hold => [.assigned, .in_progress, .cancelled]
  | .completed => []
  | .cancelled => []

/-- JobValidation.validateStatusTransition (src/utils/validation.ts lines 101-121). -/
def validateStatusTransition (currentStatus newStatus : JobStatus) : ValidationResult :=
  let errors : List String :=
    if (validTransitions currentStatus).contains newStatus then []
    else ["Invalid status transition from " ++ statusText currentStatus ++
          " to " ++ statusText newStatus]
  { isValid := errors.isEmpty, errors := errors }

/-- JobValidation.validateJobCompletion (src/utils/validation.ts lines 313-341).
The source takes an object with optional fields completionNotes, workSummary,
photos, actualDuration; they are passed here as four arguments.  JS truthiness:
a string is truthy iff nonempty (irrelevant for the length checks), an array is
always truthy, and a number is truthy iff it is nonzero and not NaN — hence the
actualDuration check fires only when the value is nonzero. -/
def validateJobCompletion (completionNotes workSummary : Option (List Char))
    (photos : Option (List String)) (actualDuration : Option ℚ) : ValidationResult :=
  let e1 : List String :=
    match completionNotes with
    | some s => if 1000 < s.length then ["Completion notes must be less than 1000 characters"] else []
    | none => []
  let e2 : List String :=
    match workSummary with
    | some s => if 2000 < s.length then ["Work summary must be less than 2000 characters"] else []
    | none => []
  let e3 : List String :=
    match actualDuration with
    | some d => if d ≠ 0 ∧ d ≤ 0 then ["Actual duration must be greater than 0 minutes"] else []
    | none => []
  let e4 : List String :=
    match photos with
    | some ps => if 10 < ps.length then ["Maximum 10 photos allowed per job"] else []
    | none => []
  let errors := e1 ++ e2 ++ e3 ++ e4
  { isValid := errors.isEmpty, errors := errors }

/-- The single-quote character (written via its code point to keep the file
free of quote-character literals). -/
def squote : Char := Char.ofNat 39

/-- The double-quote character. -/
def dquote : Char := Char.ofNat 34

/-- Whitespace as trimmed by String.prototype.trim, restricted to the ASCII
whitespace characters (space, tab, CR, LF); the modelled inputs contain no
other JS WhiteSpace code points. -/
def isJsSpace (c : Char) : Bool := c.isWhitespace

/-- JS String.prototype.trim over a list of characters. -/
def trimChars (l : List Char) : List Char :=
  ((l.dropWhile isJsSpace).reverse.dropWhile isJsSpace).reverse

/-- replace(/[<>]/g, ''). -/
def stripAngle (l : List Char) : List Char :=
  l.filter (fun c => !(c = '<' || c = '>'))

/-- replace(/['"]/g, ''). -/
def stripQuote (l : List Char) : List Char :=
  l.filter (fun c => !(c = squote || c = dquote))

/-- DataSanitizer.sanitizeString (src/utils/validation.ts lines 351-359):
trim, strip angle brackets, strip quotes, truncate to 1000 characters. -/
def sanitizeString (input : List Char) : List Char :=
  (stripQuote (stripAngle (trimChars input))).take 1000

/-- JobValidation.validateJobAssignment (src/utils/validation.ts lines 289-308).
A JS string id fails its check iff it is falsy ("") or trims to empty; both
cases are exactly "trims to the empty string", written here over the
character list with the same trim as the sanitizer. -/
def validateJobAssignment (jobId technicianId assignedBy : String) : ValidationResult :=
  let e1 : List String := if trimChars jobId.data = [] then ["Job ID is required"] else []
  let e2 : List String := if trimChars technicianId.data = [] then ["Technician ID is required"] else []
  let e3 : List String := if trimChars assignedBy.data = [] then ["Assigned by field is required"] else []
  let errors := e1 ++ e2 ++ e3
  { isValid := errors.isEmpty, errors := errors }

/-- Location fields read by the modelled operations (src/types/job.ts
JobLocation; city/state/zip are only read by operations outside the claims). -/
structure GeoLoc where
  address : List Char
  latitude : ℚ
  longitude : ℚ
deriving DecidableEq, Repr

/-- JobRequirements (src/types/job.ts); only the skills field is read by the
modelled operations. -/
structure JobRequirements where
  skills : List String
deriving DecidableEq, Repr

/-- The Job document fields read or written by the modelled JobService
operations (src/types/job.ts Job).  The source field named type is rendered
jobType; customer is flattened to the one field read (customer.name). -/
structure Job where
  id : String
  title : List Char
  description : List Char
  jobType : JobType
  status : JobStatus
  priority : JobPriority
  customerName : List Char
  location : GeoLoc
  assignedTechnicianId : Option String
  assignedBy : Option String
  assignedAt : Option Nat
  scheduledDate : Nat
  requirements : JobRequirements
  startedAt : Option Nat
  completedAt : Option Nat
  actualDuration : Option ℚ
  createdAt : Nat
  updatedAt : Nat
  completionNotes : Option (List Char)
  workSummary : Option (List Char)
  photos : List String
deriving DecidableEq, Repr

/-- The user-document fields read by assignJob / getJobRecommendations. -/
structure UserDoc where
  isActive : Bool
  role : String
  skills : List String
  currentLocation : Option (ℚ × ℚ)
deriving DecidableEq, Repr

/-- JobAssignment payload (src/types/job.ts). -/
structure JobAssignment where
  jobId : String
  technicianId : String
  assignedBy : String
  assignedAt : Nat
  notes : Option (List Char)
deriving DecidableEq, Repr

/-- The assignment record written by assignJob: the payload spread plus the
constant assignmentReason "manual". -/
structure AssignmentRec where
  jobId : String
  technicianId : String
  assignedBy : String
  assignedAt : Nat
  notes : Option (List Char)
  assignmentReason : String
deriving DecidableEq, Repr

/-- The Firestore state touched by the modelled operations: the jobs
collection, the users collection (keyed by id) and the jobAssignments
collection. -/
structure Db where
  jobs : List Job
  users : List (String × UserDoc)
  assignments : List AssignmentRec
deriving DecidableEq, Repr

/-- getDoc on the jobs collection (Firestore ids are unique; the model keeps
the first match). -/
def findJob (db : Db) (jobId : String) : Option Job :=
  db.jobs.find? (fun j => j.id = jobId)

/-- getDoc on the users collection. -/
def findUser (db : Db) (uid : String) : Option UserDoc :=
  (db.users.find? (fun p => p.1 = uid)).map Prod.snd

/-- The typed errors thrown by assignJob (src/services/index.web.ts lines
278-343), carrying the thrown message where one constructor covers two
throw sites. -/
inductive AssignError
  | validationFailed (errs : List String)
  | notFound (msg : String)
  | invalidState (status : JobStatus)
  | technicianUnavailable (msg : String)
deriving DecidableEq, Repr

/-- JobService.assignJob (src/services/index.web.ts lines 278-343): validate
the payload, check the job exists and is pending, check the technician
exists, is active and has the technician role, then atomically (writeBatch)
update the job and append an assignment record. -/
def assignJob (db : Db) (a : JobAssignment) (now : Nat) : Except AssignError Db :=
  let v := validateJobAssignment a.jobId a.technicianId a.assignedBy
  if v.isValid = false then Except.error (AssignError.validationFailed v.errors)
  else
    match findJob db a.jobId with
    | none => Except.error (AssignError.notFound ("Job not found"))
    | some job =>
      if job.status ≠ JobStatus.pending then Except.error (AssignError.invalidState job.status)
      else
        match findUser db a.technicianId with
        | none => Except.error (AssignError.notFound ("Technician not found"))
        | some t =>
          if t.isActive = false then
            Except.error (AssignError.technicianUnavailable ("Technician is not active"))
          else if t.role ≠ "technician" then
            Except.error (AssignError.technicianUnavailable ("User is not a technician"))
          else
            Except.ok
              { db with
                jobs := db.jobs.map (fun j =>
                  if j.id = a.jobId then
                    { j with
                      assignedTechnicianId := some a.technicianId
                      assignedBy := some a.assignedBy
                      assignedAt := some a.assignedAt
                      status := JobStatus.assigned
                      updatedAt := now }
                  else j)
                assignments := db.assignments ++
                  [{ jobId := a.jobId, technicianId := a.technicianId,
                     assignedBy := a.assignedBy, assignedAt := a.assignedAt,
                     notes := a.notes, assignmentReason := "manual" }] }

/-- JobUpdate payload (src/types/job.ts); fields the modelled Job does not
carry (notes, internalNotes, customerSignature) are omitted, they play no
part in any claim. -/
structure JobUpdate where
  status : Option JobStatus
  startedAt : Option Nat
  completedAt : Option Nat
  actualDuration : Option ℚ
  completionNotes : Option (List Char)
  photos : Option (List String)
  workSummary : Option (List Char)
deriving DecidableEq, Repr

/-- The errors thrown by updateJob, one constructor per throw site. -/
inductive UpdateError
  | notFound
  | invalidTransition (errs : List String)
  | completionInvalid (errs : List String)
deriving DecidableEq, Repr

/-- The merge updateDoc performs in updateJob: provided fields overwrite,
completionNotes/workSummary pass through DataSanitizer.sanitizeJobData
(which sanitizes exactly those free-text fields of a JobUpdate), updatedAt
is stamped, and startedAt/completedAt are auto-stamped from the status
change when the current job has none (src/services/index.web.ts 136-161). -/
def applyJobUpdate (j : Job) (u : JobUpdate) (current : Job) (now : Nat) : Job :=
  { j with
    status := match u.status with | some s => s | none => j.status
    actualDuration := match u.actualDuration with | some d => some d | none => j.actualDuration
    completionNotes := match u.completionNotes with
      | some c => some (sanitizeString c)
      | none => j.completionNotes
    workSummary := match u.workSummary with
      | some w => some (sanitizeString w)
      | none => j.workSummary
    photos := match u.photos with | some ps => ps | none => j.photos
    startedAt :=
      if u.status = some JobStatus.in_progress ∧ current.startedAt = none then some now
      else match u.startedAt with | some t => some t | none => j.startedAt
    completedAt :=
      if u.status = some JobStatus.completed ∧ current.completedAt = none then some now
      else match u.completedAt with | some t => some t | none => j.completedAt
    updatedAt := now }

/-- JobService.updateJob (src/services/index.web.ts lines 112-170): load the
job; when a status is requested AND it differs from the current status,
validate the transition; when the requested status is completed, validate the
completion payload; then merge the update.  Note the guard
updates.status !== currentJob.status: an update whose status equals the
current one skips transition validation entirely. -/
def updateJob (db : Db) (jobId : String) (u : JobUpdate) (now : Nat) :
    Except UpdateError Db :=
  match findJob db jobId with
  | none => Except.error UpdateError.notFound
  | some current =>
    let transCheck : ValidationResult :=
      match u.status with
      | some s =>
        if s ≠ current.status then validateStatusTransition current.status s
        else { isValid := true, errors := [] }
      | none => { isValid := true, errors := [] }
    if transCheck.isValid = false then
      Except.error (UpdateError.invalidTransition transCheck.errors)
    else
      let compCheck : ValidationResult :=
        if u.status = some JobStatus.completed then
          validateJobCompletion u.completionNotes u.workSummary u.photos u.actualDuration
        else { isValid := true, errors := [] }
      if compCheck.isValid = false then
        Except.error (UpdateError.completionInvalid compCheck.errors)
      else
        Except.ok
          { db with
            jobs := db.jobs.map (fun j =>
              if j.id = jobId then applyJobUpdate j u current now else j) }

/-- JS division as it occurs in the skill score: in that call site the
numerator is at most the denominator, so a zero denominator means 0/0 = NaN
(modelled none). -/
def jsDiv (a b : ℚ) : Option ℚ :=
  if b = 0 then none else some (a / b)

/-- matchingSkills.length for a job's required skills against the
technician's skills (src/services/index.web.ts lines 781-784). -/
def skillMatchCount (technicianSkills requiredSkills : List String) : Nat :=
  (requiredSkills.filter (fun s => technicianSkills.contains s)).length

/-- The priorityScores lookup table (src/services/index.web.ts lines 788-793);
the || 0 fallback is unreachable, every priority is in the table. -/
def priorityScore : JobPriority → ℚ
  | .urgent => 30
  | .high => 20
  | .medium => 10
  | .low => 5

/-- The inverse-distance score brackets (src/services/index.web.ts lines 806-809). -/
def distanceScore (d : ℚ) : ℚ :=
  if d ≤ 5 then 20
  else if d ≤ 10 then 15
  else if d ≤ 20 then 10
  else if d ≤ 50 then 5
  else 0

/-- The per-job recommendation score computed inside getJobRecommendations
(src/services/index.web.ts lines 777-812): skill fraction times 50, plus the
priority score, plus the distance bracket when the technician's current
location is known.  none models the NaN produced by the unguarded 0/0 when a
job requires zero skills; NaN propagates through the subsequent additions. -/
def recommendationScore (technicianSkills : List String)
    (technicianLocation : Option (ℚ × ℚ)) (dist : ℚ × ℚ → ℚ × ℚ → ℚ)
    (j : Job) : Option ℚ :=
  (jsDiv (skillMatchCount technicianSkills j.requirements.skills)
      j.requirements.skills.length).map
    (fun frac =>
      frac * 50 + priorityScore j.priority +
        match technicianLocation with
        | some loc => distanceScore (dist loc (j.location.latitude, j.location.longitude))
        | none => 0)

/-- The sort comparator (a, b) => b.score - a.score as ECMAScript applies it:
a nonpositive difference keeps a before b, and a NaN comparison result is
treated as 0 (a tie), so a NaN score ties with everything. -/
def scoreOrder (a b : Option ℚ) : Bool :=
  match a, b with
  | some x, some y => decide (y ≤ x)
  | _, _ => true

/-- The ranking phase of JobService.getJobRecommendations
(src/services/index.web.ts lines 774-819) over an already-retrieved candidate
list: score every job, sort by descending score (stable, as ECMAScript
requires), truncate to maxResults, drop the scores. -/
def getJobRecommendations (technicianSkills : List String)
    (technicianLocation : Option (ℚ × ℚ)) (dist : ℚ × ℚ → ℚ × ℚ → ℚ)
    (candidates : List Job) (maxResults : Nat) : List Job :=
  let scored := candidates.map
    (fun j => (j, recommendationScore technicianSkills technicianLocation dist j))
  let sorted := scored.mergeSort (fun a b => scoreOrder a.2 b.2)
  (sorted.take maxResults).map Prod.fst

/-- Geo filter payload of JobFilter.location (src/types/job.ts). -/
structure GeoFilter where
  latitude : ℚ
  longitude : ℚ
  radius : ℚ
deriving DecidableEq, Repr

/-- JobFilter (src/types/job.ts).  An absent array filter is the empty list
(the source guards with filter.x && filter.x.length > 0, so [] and absent
coincide). -/
structure JobFilter where
  status : List JobStatus
  priority : List JobPriority
  jobType : List JobType
  assignedTechnicianId : Option String
  dateRange : Option (Nat × Nat)
  location : Option GeoFilter
  searchText : Option (List Char)
deriving DecidableEq, Repr

/-- The store-side predicates getJobs pushes down to Firestore
(src/services/index.web.ts lines 200-221): status/priority/type membership,
technician equality, scheduledDate range. -/
def storePass (f : JobFilter) (j : Job) : Bool :=
  (f.status.isEmpty || f.status.contains j.status) &&
  (f.priority.isEmpty || f.priority.contains j.priority) &&
  (f.jobType.isEmpty || f.jobType.contains j.jobType) &&
  (match f.assignedTechnicianId with
   | some tid => decide (j.assignedTechnicianId = some tid)
   | none => true) &&
  (match f.dateRange with
   | some r => decide (r.1 ≤ j.scheduledDate) && decide (j.scheduledDate ≤ r.2)
   | none => true)

/-- The orderBy createdAt desc ordering of the store, with the document-id
ascending tiebreak Firestore appends implicitly: a may precede b. -/
def createdDescLe (a b : Job) : Bool :=
  decide (b.createdAt < a.createdAt) ||
    (decide (a.createdAt = b.createdAt) && decide (a.id ≤ b.id))

/-- b sits strictly after a in the createdAt-desc order (used for the
startAfter cursor position). -/
def createdDescAfter (a b : Job) : Bool :=
  decide (b.createdAt < a.createdAt) ||
    (decide (a.createdAt = b.createdAt) && decide (a.id < b.id))

/-- The store query getJobs issues: filtered by the pushed-down predicates,
ordered by createdAt descending, positioned strictly after the cursor
document when one is given, limited to limitN records.  This models the
external Firestore collaborator of spec section 6. -/
def storeQuery (db : Db) (f : JobFilter) (limitN : Nat) (cursor : Option Job) :
    List Job :=
  let sorted := (db.jobs.filter (storePass f)).mergeSort createdDescLe
  let positioned :=
    match cursor with
    | none => sorted
    | some cur => sorted.filter (createdDescAfter cur)
  positioned.take limitN

/-- needle occurs at the start of the haystack. -/
def startsWith : List Char → List Char → Bool
  | _, [] => true
  | [], _ :: _ => false
  | c :: cs, d :: ds => (c = d) && startsWith cs ds

/-- JS String.prototype.includes: needle occurs somewhere in the haystack. -/
def includesSub : List Char → List Char → Bool
  | [], needle => needle.isEmpty
  | c :: cs, needle => startsWith (c :: cs) needle || includesSub cs needle

/-- The application-side free-text predicate of getJobs
(src/services/index.web.ts lines 245-253). -/
def textMatch (searchText : List Char) (j : Job) : Bool :=
  let searchLower := searchText.map Char.toLower
  includesSub (j.title.map Char.toLower) searchLower ||
  includesSub (j.description.map Char.toLower) searchLower ||
  includesSub (j.customerName.map Char.toLower) searchLower ||
  includesSub (j.location.address.map Char.toLower) searchLower

/-- The application-side geo-radius predicate of getJobs
(src/services/index.web.ts lines 255-265): keep the job iff its distance to
the filter point is at most the radius.  dist abstracts the floating-point
calculateDistance. -/
def geoPass (dist : ℚ × ℚ → ℚ × ℚ → ℚ) (g : GeoFilter) (j : Job) : Bool :=
  decide (dist (g.latitude, g.longitude) (j.location.latitude, j.location.longitude) ≤ g.radius)

/-- Result shape of getJobs. -/
structure JobsPage where
  jobs : List Job
  hasMore : Bool
deriving DecidableEq, Repr

/-- JobService.getJobs (src/services/index.web.ts lines 188-273): resolve the
cursor id (a missing record silently yields no startAfter), fetch
pageSize + 1 records, keep at most pageSize, set hasMore from the raw
snapshot size, then apply the client-side text and geo filters. -/
def getJobs (dist : ℚ × ℚ → ℚ × ℚ → ℚ) (db : Db) (f : JobFilter)
    (pageSize : Nat) (lastJobId : Option String) : JobsPage :=
  let cursor : Option Job :=
    match lastJobId with
    | some cid => findJob db cid
    | none => none
  let snapshot := storeQuery db f (pageSize + 1) cursor
  let jobs := snapshot.take pageSize
  let hasMore := decide (pageSize < snapshot.length)
  let textFiltered :=
    match f.searchText with
    | some t => if t = [] then jobs else jobs.filter (textMatch t)
    | none => jobs
  let geoFiltered :=
    match f.location with
    | some g => textFiltered.filter (geoPass dist g)
    | none => textFiltered
  { jobs := geoFiltered, hasMore := hasMore }

/-- JobStats (src/types/job.ts). -/
structure JobStats where
  total : Nat
  pending : Nat
  assigned : Nat
  inProgress : Nat
  completed : Nat
  cancelled : Nat
  onHold : Nat
deriving DecidableEq, Repr

/-- A raw Firestore job document as getJobStats scans it: the status field is
an untyped string, not necessarily one of the six enum values. -/
structure RawJobDoc where
  status : String
deriving DecidableEq, Repr

/-- One iteration of the forEach in getJobStats (src/services/index.web.ts
lines 403-427): total always increments, the switch increments the matching
bucket and has no default case. -/
def statsStep (s : JobStats) (d : RawJobDoc) : JobStats :=
  if d.status = "pending" then { s with total := s.total + 1, pending := s.pending + 1 }
  else if d.status = "assigned" then { s with total := s.total + 1, assigned := s.assigned + 1 }
  else if d.status = "in_progress" then { s with total := s.total + 1, inProgress := s.inProgress + 1 }
  else if d.status = "completed" then { s with total := s.total + 1, completed := s.completed + 1 }
  else if d.status = "cancelled" then { s with total := s.total + 1, cancelled := s.cancelled + 1 }
  else if d.status = "on_hold" then { s with total := s.total + 1, onHold := s.onHold + 1 }
  else { s with total := s.total + 1 }

/-- The aggregation pass of JobService.getJobStats (src/services/index.web.ts
lines 392-429) over the scanned documents. -/
def getJobStats (docs : List RawJobDoc) : JobStats :=
  docs.foldl statsStep { total := 0, pending := 0, assigned := 0,
                         inProgress := 0, completed := 0, cancelled := 0, onHold := 0 }

/-- The six bucket counts summed (spec wording: pending + assigned +
inProgress + completed + cancelled + onHold). -/
def sumStatusBuckets (s : JobStats) : Nat :=
  s.pending + s.assigned + s.inProgress + s.completed + s.cancelled + s.onHold

/-- The six recognised status strings (the values of the JobStatus enum). -/
def isKnownStatus (s : String) : Bool :=
  s = "pending" || s = "assigned" || s = "in_progress" ||
  s = "completed" || s = "cancelled" || s = "on_hold"

/-- The recommendation skill score as the SPEC words it (section 4.6):
50 times the matched fraction, with a job requiring zero skills treated as a
full match.  Kept separate from recommendationScore, which is translated from
the source, to compare the two. -/
def specSkillScore (technicianSkills requiredSkills : List String) : ℚ :=
  if requiredSkills = [] then 50
  else (skillMatchCount technicianSkills requiredSkills : ℚ) / requiredSkills.length * 50

/-- The total recommendation score as the SPEC words it: skillScore +
priorityScore + distanceScore, the distance bracket applying only when the
technician's location is known. -/
def specRecommendationScore (technicianSkills : List String)
    (technicianLocation : Option (ℚ × ℚ)) (dist : ℚ × ℚ → ℚ × ℚ → ℚ)
    (j : Job) : ℚ :=
  specSkillScore technicianSkills j.requirements.skills + priorityScore j.priority +
    match technicianLocation with
    | some loc => distanceScore (dist loc (j.location.latitude, j.location.longitude))
    | none => 0

/-- Math degree-to-radian conversion (src/services/index.web.ts lines 603-605),
over the ideal reals. -/
noncomputable def toRadians (degrees : ℝ) : ℝ := degrees * (Real.pi / 180)

/-- The intermediate value a of the haversine formula
(src/services/index.web.ts lines 593-598). -/
noncomputable def haversineA (lat1 lon1 lat2 lon2 : ℝ) : ℝ :=
  Real.sin (toRadians (lat2 - lat1) / 2) * Real.sin (toRadians (lat2 - lat1) / 2) +
    Real.cos (toRadians lat1) * Real.cos (toRadians lat2) *
      (Real.sin (toRadians (lon2 - lon1) / 2) * Real.sin (toRadians (lon2 - lon1) / 2))

/-- Math.atan2 over the ideal reals (the ±0 distinction of IEEE floats has no
counterpart; both zeros collapse to 0, where atan2 0 0 = 0 like JS). -/
noncomputable def atan2 (y x : ℝ) : ℝ :=
  if 0 < x then Real.arctan (y / x)
  else if x < 0 ∧ 0 ≤ y then Real.arctan (y / x) + Real.pi
  else if x < 0 ∧ y < 0 then Real.arctan (y / x) - Real.pi
  else if x = 0 ∧ 0 < y then Real.pi / 2
  else if x = 0 ∧ y < 0 then -(Real.pi / 2)
  else 0

/-- JobService.calculateDistance (src/services/index.web.ts lines 584-601):
great-circle haversine distance with Earth radius 6371 km, modelled over the
ideal reals in place of IEEE doubles. -/
noncomputable def calculateDistance (lat1 lon1 lat2 lon2 : ℝ) : ℝ :=
  6371 *
    (2 * atan2 (Real.sqrt (haversineA lat1 lon1 lat2 lon2))
      (Real.sqrt (1 - haversineA lat1 lon1 lat2 lon2)))

/-- A fixed distance oracle for concrete evaluations: every pair of points is
3 km apart. -/
def dist3 : ℚ × ℚ → ℚ × ℚ → ℚ := fun _ _ => 3

/-- A concrete location for fixtures. -/
def loc0 : GeoLoc := { address := [], latitude := 0, longitude := 0 }

/-- A baseline pending job all concrete fixtures derive from. -/
def baseJob : Job :=
  { id := "j1", title := [], description := [], jobType := JobType.repair,
    status := JobStatus.pending, priority := JobPriority.medium,
    customerName := [], location := loc0, assignedTechnicianId := none,
    assignedBy := none, assignedAt := none, scheduledDate := 100,
    requirements := { skills := ["cabling"] }, startedAt := none,
    completedAt := none, actualDuration := none, createdAt := 10,
    updatedAt := 10, completionNotes := none, workSummary := none,
    photos := [] }

/-- An update payload that changes nothing but re-sends the job's current
status. -/
def updSame : JobUpdate :=
  { status := some JobStatus.pending, startedAt := none, completedAt := none,
    actualDuration := none, completionNotes := none, photos := none,
    workSummary := none }

/-- A one-job store for the updateJob counterexample. -/
def db1 : Db := { jobs := [baseJob], users := [], assignments := [] }

/-- A job that requires a skill the scored technician lacks, at low priority:
spec score 0 + 5 + 20 against dist3 and a known location. -/
def jobLow : Job :=
  { baseJob with
    id := "jLow"
    requirements := JobRequirements.mk ["plumbing"]
    priority := JobPriority.low }

/-- A job that requires zero skills, at urgent priority: the spec gives it
50 + 30 + 20 = 100, the source computes 0/0 = NaN. -/
def jobZero : Job :=
  { baseJob with
    id := "jZero"
    requirements := JobRequirements.mk []
    priority := JobPriority.urgent }

/-- A job requiring exactly the skill cabling at urgent priority (the
spec's worked example). -/
def jobCabling : Job :=
  { baseJob with
    id := "jCab"
    priority := JobPriority.urgent }

/-- A store with one pending job and one active technician, for the assignJob
witness. -/
def db2 : Db :=
  { jobs := [baseJob],
    users := [("t1", { isActive := true, role := "technician",
                       skills := ["cabling"], currentLocation := none })],
    assignments := [] }

/-- The assignment payload used in concrete assignJob evaluations. -/
def assign1 : JobAssignment :=
  { jobId := "j1", technicianId := "t1", assignedBy := "d1", assignedAt := 50,
    notes := none }

/-- The empty JobFilter: no predicate pushed down, no client-side filter. -/
def fNone : JobFilter :=
  { status := [], priority := [], jobType := [], assignedTechnicianId := none,
    dateRange := none, location := none, searchText := none }

/-- Three jobs with distinct creation times for pagination evaluations. -/
def jA : Job :=
  { baseJob with
    id := "a"
    createdAt := 30 }

/-- Second pagination fixture job. -/
def jB : Job :=
  { baseJob with
    id := "b"
    createdAt := 20 }

/-- Third pagination fixture job. -/
def jC : Job :=
  { baseJob with
    id := "c"
    createdAt := 10 }

/-- A three-job store for the getJobs witness. -/
def dbPage : Db := { jobs := [jC, jA, jB], users := [], assignments := [] }

/-- An input on which sanitizeString is not idempotent: stripping the quote
exposes a trailing space that only a second application trims. -/
def exNonIdem : List Char := ['h', 'i', ' ', squote]

/-- C2: for every pair (current, next) of job statuses with next not in the
transition table, validateStatusTransition returns an invalid-transition
error (isValid false and exactly the invalid-transition message); and the
terminal states completed and cancelled have empty rows, so every transition
out of them — self-transitions included — is rejected. -/
theorem validateStatusTransition_rejects_nontable (c n : JobStatus)
    (h : (validTransitions c).contains n = false) :
    ((validateStatusTransition c n).isValid = false ∧
      (validateStatusTransition c n).errors =
        ["Invalid status transition from " ++ statusText c ++ " to " ++ statusText n]) ∧
    (validTransitions JobStatus.completed = [] ∧ validTransitions JobStatus.cancelled = []) := by
  refine ⟨?_, rfl, rfl⟩
  have hm : n ∉ validTransitions c := by simpa using h
  simp [validateStatusTransition, hm]

/-- Witness for C2 at the self-transition out of the terminal state
completed. -/
theorem validateStatusTransition_rejects_nontable_witness :
    ((validateStatusTransition JobStatus.completed JobStatus.completed).isValid = false ∧
      (validateStatusTransition JobStatus.completed JobStatus.completed).errors =
        ["Invalid status transition from " ++ statusText JobStatus.completed ++
          " to " ++ statusText JobStatus.completed]) ∧
    (validTransitions JobStatus.completed = [] ∧ validTransitions JobStatus.cancelled = []) :=
  validateStatusTransition_rejects_nontable JobStatus.completed JobStatus.completed (by decide)

/-- C8: evaluating validateJobCompletion at the payload whose actualDuration
is exactly 0 — a value that is present and not greater than 0, so the claim
(and the source's own error message) demand an error — yields no error at
all: the JS truthiness guard (completionData.actualDuration && ...) skips the
check because 0 is falsy. -/
theorem validateJobCompletion_zero_duration_accepted :
    validateJobCompletion none none none (some 0) =
      { isValid := true, errors := [] } := by decide

/-- statsStep always increments total. -/
theorem statsStep_total (s : JobStats) (d : RawJobDoc) :
    (statsStep s d).total = s.total + 1 := by
  unfold statsStep
  split_ifs <;> rfl

/-- statsStep increments the bucket sum exactly when the status string is one
of the six recognised values. -/
theorem statsStep_sum (s : JobStats) (d : RawJobDoc) :
    sumStatusBuckets (statsStep s d) =
      sumStatusBuckets s + (if isKnownStatus d.status then 1 else 0) := by
  unfold statsStep sumStatusBuckets isKnownStatus
  split_ifs <;> simp_all <;> omega

/-- Folding statsStep adds the document count to total. -/
theorem foldl_statsStep_total (docs : List RawJobDoc) (s : JobStats) :
    (docs.foldl statsStep s).total = s.total + docs.length := by
  induction docs generalizing s with
  | nil => simp
  | cons d t ih =>
    simp only [List.foldl_cons, ih, statsStep_total, List.length_cons]
    omega

/-- Folding statsStep adds the recognised-status count to the bucket sum. -/
theorem foldl_statsStep_sum (docs : List RawJobDoc) (s : JobStats) :
    sumStatusBuckets (docs.foldl statsStep s) =
      sumStatusBuckets s + (docs.filter (fun d => isKnownStatus d.status)).length := by
  induction docs generalizing s with
  | nil => simp
  | cons d t ih =>
    simp only [List.foldl_cons, ih, statsStep_sum]
    by_cases h : isKnownStatus d.status
    · simp [List.filter_cons, h]
      omega
    · simp [List.filter_cons, h]

/-- C10: getJobStats counts every scanned document into total — including
documents whose status is none of the six enumerated values, which increment
no bucket — so total equals the number of scanned documents, the bucket sum
counts only recognised statuses, and on a store containing an unrecognised
status the total strictly exceeds the bucket sum. -/
theorem getJobStats_total_counts_all :
    (∀ docs : List RawJobDoc, (getJobStats docs).total = docs.length) ∧
    (∀ docs : List RawJobDoc,
      sumStatusBuckets (getJobStats docs) =
        (docs.filter (fun d => isKnownStatus d.status)).length) ∧
    sumStatusBuckets (getJobStats [RawJobDoc.mk ("mystery")]) <
      (getJobStats [RawJobDoc.mk ("mystery")]).total := by
  refine ⟨?_, ?_, by decide⟩
  · intro docs
    unfold getJobStats
    rw [foldl_statsStep_total]
    simp
  · intro docs
    unfold getJobStats
    rw [foldl_statsStep_sum]
    simp [sumStatusBuckets]

/-- trimChars only removes characters. -/
theorem trimChars_sublist (l : List Char) : (trimChars l).Sublist l := by
  unfold trimChars
  have h1 : (l.dropWhile isJsSpace).Sublist l := List.dropWhile_sublist _
  have h2 : ((l.dropWhile isJsSpace).reverse.dropWhile isJsSpace).Sublist
      (l.dropWhile isJsSpace).reverse := List.dropWhile_sublist _
  have h3 := h2.reverse
  rw [List.reverse_reverse] at h3
  exact h3.trans h1

/-- Every character of a sanitized string survives both strip passes. -/
theorem mem_sanitizeString {c : Char} {x : List Char} (h : c ∈ sanitizeString x) :
    (!(c = '<' || c = '>')) = true ∧ (!(c = squote || c = dquote)) = true := by
  unfold sanitizeString at h
  have h1 : c ∈ stripQuote (stripAngle (trimChars x)) := List.mem_of_mem_take h
  unfold stripQuote at h1
  obtain ⟨h2, hq⟩ := List.mem_filter.mp h1
  unfold stripAngle at h2
  obtain ⟨h3, ha⟩ := List.mem_filter.mp h2
  exact ⟨ha, hq⟩

/-- A sanitized string has at most 1000 characters. -/
theorem sanitizeString_length (x : List Char) : (sanitizeString x).length ≤ 1000 := by
  unfold sanitizeString
  simp [List.length_take_le]

/-- Sanitizing a second time only trims: both strip passes and the
truncation are identities on an already-sanitized string. -/
theorem sanitizeString_sanitizeString (x : List Char) :
    sanitizeString (sanitizeString x) = trimChars (sanitizeString x) := by
  have hsub := trimChars_sublist (sanitizeString x)
  have hfa : stripAngle (trimChars (sanitizeString x)) = trimChars (sanitizeString x) := by
    unfold stripAngle
    exact List.filter_eq_self.mpr (fun c hc => (mem_sanitizeString (hsub.subset hc)).1)
  have hfq : stripQuote (trimChars (sanitizeString x)) = trimChars (sanitizeString x) := by
    unfold stripQuote
    exact List.filter_eq_self.mpr (fun c hc => (mem_sanitizeString (hsub.subset hc)).2)
  have htake : (trimChars (sanitizeString x)).take 1000 = trimChars (sanitizeString x) :=
    List.take_of_length_le (hsub.length_le.trans (sanitizeString_length x))
  show (stripQuote (stripAngle (trimChars (sanitizeString x)))).take 1000 =
    trimChars (sanitizeString x)
  rw [hfa, hfq, htake]

/-- C5 (amended): a second sanitization pass is exactly a trim of the first
pass's output — stripping and truncation can expose trailing whitespace, so
sanitizeString is idempotent precisely on inputs whose sanitized form is
already trimmed; on the spec's worked example it does behave idempotently
and yields bHi/b. -/
theorem sanitizeString_twice_eq_trim :
    (∀ x : List Char, sanitizeString (sanitizeString x) = trimChars (sanitizeString x)) ∧
    sanitizeString ("  <b>Hi</b>  ".toList) = "bHi/b".toList ∧
    sanitizeString (sanitizeString ("  <b>Hi</b>  ".toList)) =
      sanitizeString ("  <b>Hi</b>  ".toList) :=
  ⟨sanitizeString_sanitizeString, by decide, by decide⟩

/-- C5 counterexample: on the four-character input h i space quote, one
sanitization yields h i space (the quote is stripped, exposing a trailing
space that the already-performed trim cannot remove), and a second
sanitization yields h i — so sanitize(sanitize(x)) differs from
sanitize(x). -/
theorem sanitizeString_not_idempotent :
    sanitizeString (sanitizeString exNonIdem) ≠ sanitizeString exNonIdem := by decide

/-- C3 counterexample: the store db1 holds job j1 with status pending, and
updSame requests status pending — new status equal to current status.  The
claim says updateJob rejects this as an invalid transition; instead the
update succeeds, because updateJob only validates transitions when the
requested status differs from the current one. -/
theorem updateJob_selfstatus_accepted :
    (updateJob db1 ("j1") updSame 7).isOk = true ∧
    (findJob db1 ("j1")).map Job.status = some JobStatus.pending ∧
    updSame.status = some JobStatus.pending := by decide

/-- C3 (amended): when the requested new status equals the job's current
status, updateJob skips the status-machine check entirely and can never fail
with an invalid-transition error; the transition table itself has no
self-loops, so validateStatusTransition called directly does reject every
self-transition. -/
theorem updateJob_selfstatus_skips_transition_check
    (db : Db) (jobId : String) (u : JobUpdate) (now : Nat) (j : Job)
    (hfind : findJob db jobId = some j) (hst : u.status = some j.status) :
    (∀ errs, updateJob db jobId u now ≠ Except.error (UpdateError.invalidTransition errs)) ∧
    (∀ s : JobStatus, (validateStatusTransition s s).isValid = false) := by
  constructor
  · intro errs h
    unfold updateJob at h
    rw [hfind] at h
    rw [hst] at h
    simp only [ne_eq, not_true_eq_false, if_false, Option.some.injEq,
      Bool.true_eq_false] at h
    split at h <;> simp_all
    all_goals (split at h <;> simp_all)
  · decide

/-- Witness for C3's amended theorem at the concrete store db1. -/
theorem updateJob_selfstatus_skips_transition_check_witness :
    (∀ errs, updateJob db1 ("j1") updSame 7 ≠
        Except.error (UpdateError.invalidTransition errs)) ∧
    (∀ s : JobStatus, (validateStatusTransition s s).isValid = false) :=
  updateJob_selfstatus_skips_transition_check db1 ("j1") updSame 7 baseJob
    (by decide) (by decide)

/-- C4 counterexample: jobZero requires zero skills; its recommendation score
evaluates to none — the NaN produced by the unguarded 0/0 — not to a
well-defined number with a 50-point skill component as the claim states. -/
theorem recommendationScore_zero_skills_nan :
    recommendationScore ["cabling"] (some (0, 0)) dist3 jobZero = none := by decide

/-- C4 (amended): the skill-score division matchingSkills.length /
requiredSkills.length has no zero guard; for every technician and every job
whose requirements contain zero skills it evaluates 0/0 = NaN, and the NaN
propagates through the additions, so the job's total score is NaN (modelled
none), not the full 50 points. -/
theorem recommendationScore_zero_skills
    (technicianSkills : List String) (technicianLocation : Option (ℚ × ℚ))
    (dist : ℚ × ℚ → ℚ × ℚ → ℚ) (j : Job)
    (h : j.requirements.skills = []) :
    recommendationScore technicianSkills technicianLocation dist j = none := by
  unfold recommendationScore jsDiv
  rw [h]
  simp [skillMatchCount]

/-- Witness for C4's amended theorem at the concrete zero-skills job. -/
theorem recommendationScore_zero_skills_witness :
    jobZero.requirements.skills = [] ∧
    recommendationScore [] (some (0, 0)) dist3 jobZero = none :=
  ⟨by decide, recommendationScore_zero_skills [] (some (0, 0)) dist3 jobZero (by decide)⟩

/-- The haversine intermediate a is symmetric in the two points. -/
theorem haversineA_symm (lat1 lon1 lat2 lon2 : ℝ) :
    haversineA lat2 lon2 lat1 lon1 = haversineA lat1 lon1 lat2 lon2 := by
  unfold haversineA
  have h1 : toRadians (lat1 - lat2) = -(toRadians (lat2 - lat1)) := by
    unfold toRadians
    ring
  have h2 : toRadians (lon1 - lon2) = -(toRadians (lon2 - lon1)) := by
    unfold toRadians
    ring
  simp only [h1, h2, neg_div, Real.sin_neg]
  ring

/-- At coincident points the haversine intermediate a vanishes. -/
theorem haversineA_self (lat lon : ℝ) : haversineA lat lon lat lon = 0 := by
  unfold haversineA toRadians
  rw [sub_self, sub_self]
  simp

/-- C9: the great-circle distance of the source (haversine, Earth radius
6371 km, modelled over the ideal reals) is symmetric and vanishes on
coincident points; and a job passes the geo-radius filter of getJobs iff its
computed distance to the filter point is at most radiusKm. -/
theorem calculateDistance_symm_self_and_geo_filter :
    (∀ lat1 lon1 lat2 lon2 : ℝ,
      calculateDistance lat1 lon1 lat2 lon2 = calculateDistance lat2 lon2 lat1 lon1) ∧
    (∀ lat lon : ℝ, calculateDistance lat lon lat lon = 0) ∧
    (∀ (dist : ℚ × ℚ → ℚ × ℚ → ℚ) (g : GeoFilter) (l : List Job) (j : Job),
      j ∈ l.filter (geoPass dist g) ↔
        j ∈ l ∧
          dist (g.latitude, g.longitude) (j.location.latitude, j.location.longitude) ≤
            g.radius) := by
  refine ⟨?_, ?_, ?_⟩
  · intro lat1 lon1 lat2 lon2
    unfold calculateDistance
    rw [haversineA_symm]
  · intro lat lon
    unfold calculateDistance
    rw [haversineA_self, Real.sqrt_zero, sub_zero, Real.sqrt_one]
    unfold atan2
    rw [if_pos (by norm_num : (0:ℝ) < 1)]
    rw [zero_div, Real.arctan_zero]
    ring
  · intro dist g l j
    simp [List.mem_filter, geoPass]

/-- The store ordering (createdAt descending, id ascending tiebreak) is
transitive. -/
theorem createdDescLe_trans (a b c : Job) (hab : createdDescLe a b)
    (hbc : createdDescLe b c) : createdDescLe a c := by
  unfold createdDescLe at *
  simp only [Bool.or_eq_true, Bool.and_eq_true, decide_eq_true_eq] at *
  rcases hab with h1 | ⟨h1, h2⟩ <;> rcases hbc with h3 | ⟨h3, h4⟩
  · left
    omega
  · left
    omega
  · left
    omega
  · right
    exact ⟨by omega, le_trans h2 h4⟩

/-- The store ordering is total. -/
theorem createdDescLe_total (a b : Job) : createdDescLe a b || createdDescLe b a := by
  unfold createdDescLe
  simp only [Bool.or_eq_true, Bool.and_eq_true, decide_eq_true_eq]
  rcases Nat.lt_trichotomy a.createdAt b.createdAt with h | h | h
  · exact Or.inr (Or.inl h)
  · rcases le_total a.id b.id with hle | hle
    · exact Or.inl (Or.inr ⟨h, hle⟩)
    · exact Or.inr (Or.inr ⟨h.symm, hle⟩)
  · exact Or.inl (Or.inl h)

/-- Every snapshot the store hands back is ordered by creation time
descending. -/
theorem storeQuery_sorted (db : Db) (f : JobFilter) (n : Nat) (cur : Option Job) :
    (storeQuery db f n cur).Pairwise (fun a b => b.createdAt ≤ a.createdAt) := by
  have hs : ((db.jobs.filter (storePass f)).mergeSort createdDescLe).Pairwise
      (fun a b => createdDescLe a b = true) :=
    List.sorted_mergeSort createdDescLe_trans (fun a b => createdDescLe_total a b) _
  have himp : ∀ {a b : Job}, createdDescLe a b = true → b.createdAt ≤ a.createdAt := by
    intro a b h
    unfold createdDescLe at h
    simp only [Bool.or_eq_true, Bool.and_eq_true, decide_eq_true_eq] at h
    rcases h with h | ⟨h, _⟩ <;> omega
  have hs2 := hs.imp (fun h => himp h)
  unfold storeQuery
  cases cur with
  | none => exact List.Pairwise.sublist (List.take_sublist _ _) hs2
  | some c =>
    exact List.Pairwise.sublist
      ((List.take_sublist _ _).trans (List.filter_sublist _)) hs2

/-- The jobs getJobs returns are obtained from the first pageSize snapshot
records by the two client-side filters, hence form a sublist of them. -/
theorem getJobs_jobs_sublist (dist : ℚ × ℚ → ℚ × ℚ → ℚ) (db : Db) (f : JobFilter)
    (pageSize : Nat) (lastJobId : Option String) :
    (getJobs dist db f pageSize lastJobId).jobs.Sublist
      ((storeQuery db f (pageSize + 1)
        (match lastJobId with
         | some cid => findJob db cid
         | none => none)).take pageSize) := by
  unfold getJobs
  rcases hst : f.searchText with _ | t <;> rcases hloc : f.location with _ | g <;>
    simp only [hst, hloc]
  · exact List.Sublist.refl _
  · exact List.filter_sublist _
  · by_cases ht : t = []
    · simp only [if_pos ht]
      exact List.Sublist.refl _
    · simp only [if_neg ht]
      exact List.filter_sublist _
  · by_cases ht : t = []
    · simp only [if_pos ht]
      exact List.filter_sublist _
    · simp only [if_neg ht]
      exact (List.filter_sublist _).trans (List.filter_sublist _)

/-- C7: getJobs asks the store for pageSize + 1 records ordered by creation
time descending (the snapshot is no longer than pageSize + 1 and is sorted),
returns at most pageSize jobs, sets hasMore exactly when the store returned
more than pageSize records — computed from the raw snapshot, so the
application-side text and geo filters cannot change it — and a cursor id
that resolves to no record makes the query run silently from the top, with
no error. -/
theorem getJobs_pagination (dist : ℚ × ℚ → ℚ × ℚ → ℚ) (db : Db) (f : JobFilter)
    (pageSize : Nat) (lastJobId : Option String) :
    ((storeQuery db f (pageSize + 1)
        (match lastJobId with
         | some cid => findJob db cid
         | none => none)).length ≤ pageSize + 1) ∧
    ((storeQuery db f (pageSize + 1)
        (match lastJobId with
         | some cid => findJob db cid
         | none => none)).Pairwise (fun a b => b.createdAt ≤ a.createdAt)) ∧
    ((getJobs dist db f pageSize lastJobId).jobs.length ≤ pageSize) ∧
    ((getJobs dist db f pageSize lastJobId).hasMore = true ↔
      pageSize < (storeQuery db f (pageSize + 1)
        (match lastJobId with
         | some cid => findJob db cid
         | none => none)).length) ∧
    (∀ (t : Option (List Char)) (g : Option GeoFilter),
      (getJobs dist db { f with searchText := t, location := g } pageSize lastJobId).hasMore =
        (getJobs dist db f pageSize lastJobId).hasMore) ∧
    (∀ cid : String, findJob db cid = none →
      getJobs dist db f pageSize (some cid) = getJobs dist db f pageSize none) := by
  refine ⟨?_, storeQuery_sorted db f (pageSize + 1) _, ?_, ?_, ?_, ?_⟩
  · unfold storeQuery
    simp [List.length_take]
  · refine le_trans (getJobs_jobs_sublist dist db f pageSize lastJobId).length_le ?_
    simp [List.length_take]
  · simp [getJobs]
  · intro t g
    rfl
  · intro cid h
    simp only [getJobs, h]

/-- Witness for C7 at a concrete three-job store with an unresolvable
cursor id. -/
theorem getJobs_pagination_witness :
    findJob dbPage ("zzz") = none ∧
    getJobs dist3 dbPage fNone 1 (some ("zzz")) = getJobs dist3 dbPage fNone 1 none :=
  ⟨by decide,
    (getJobs_pagination dist3 dbPage fNone 1 (some ("zzz"))).2.2.2.2.2 ("zzz") (by decide)⟩

/-- C1: assignJob checks its preconditions in the fixed order structural
validation, job exists, job pending, technician exists, technician active,
technician role — each error case holds exactly when its own check fails and
every earlier check passes, no state is written on failure (an error carries
no new store), and a success implies all six checks held and performed
exactly the job update plus the appended assignment record. -/
theorem assignJob_check_order (db : Db) (a : JobAssignment) (now : Nat) :
    ((∃ errs, assignJob db a now = Except.error (AssignError.validationFailed errs)) ↔
      (validateJobAssignment a.jobId a.technicianId a.assignedBy).isValid = false) ∧
    (assignJob db a now = Except.error (AssignError.notFound ("Job not found")) ↔
      (validateJobAssignment a.jobId a.technicianId a.assignedBy).isValid = true ∧
      findJob db a.jobId = none) ∧
    (∀ s : JobStatus, assignJob db a now = Except.error (AssignError.invalidState s) ↔
      (validateJobAssignment a.jobId a.technicianId a.assignedBy).isValid = true ∧
      (∃ j, findJob db a.jobId = some j ∧ j.status = s) ∧ s ≠ JobStatus.pending) ∧
    (assignJob db a now = Except.error (AssignError.notFound ("Technician not found")) ↔
      (validateJobAssignment a.jobId a.technicianId a.assignedBy).isValid = true ∧
      (∃ j, findJob db a.jobId = some j ∧ j.status = JobStatus.pending) ∧
      findUser db a.technicianId = none) ∧
    (assignJob db a now =
        Except.error (AssignError.technicianUnavailable ("Technician is not active")) ↔
      (validateJobAssignment a.jobId a.technicianId a.assignedBy).isValid = true ∧
      (∃ j, findJob db a.jobId = some j ∧ j.status = JobStatus.pending) ∧
      (∃ t, findUser db a.technicianId = some t ∧ t.isActive = false)) ∧
    (assignJob db a now =
        Except.error (AssignError.technicianUnavailable ("User is not a technician")) ↔
      (validateJobAssignment a.jobId a.technicianId a.assignedBy).isValid = true ∧
      (∃ j, findJob db a.jobId = some j ∧ j.status = JobStatus.pending) ∧
      (∃ t, findUser db a.technicianId = some t ∧ t.isActive = true ∧
        t.role ≠ "technician")) ∧
    (∀ db2, assignJob db a now = Except.ok db2 →
      (validateJobAssignment a.jobId a.technicianId a.assignedBy).isValid = true ∧
      (∃ j, findJob db a.jobId = some j ∧ j.status = JobStatus.pending) ∧
      (∃ t, findUser db a.technicianId = some t ∧ t.isActive = true ∧
        t.role = "technician") ∧
      db2 =
        { db with
          jobs := db.jobs.map (fun jj =>
            if jj.id = a.jobId then
              { jj with
                assignedTechnicianId := some a.technicianId
                assignedBy := some a.assignedBy
                assignedAt := some a.assignedAt
                status := JobStatus.assigned
                updatedAt := now }
            else jj)
          assignments := db.assignments ++
            [{ jobId := a.jobId, technicianId := a.technicianId,
               assignedBy := a.assignedBy, assignedAt := a.assignedAt,
               notes := a.notes, assignmentReason := "manual" }] }) := by
  cases hv : (validateJobAssignment a.jobId a.technicianId a.assignedBy).isValid with
  | false =>
    have hres : assignJob db a now = Except.error (AssignError.validationFailed
        (validateJobAssignment a.jobId a.technicianId a.assignedBy).errors) := by
      unfold assignJob
      simp [hv]
    simp [hres, hv]
  | true =>
    rcases hj : findJob db a.jobId with _ | j
    · have hres : assignJob db a now =
          Except.error (AssignError.notFound ("Job not found")) := by
        unfold assignJob
        simp [hv, hj]
      simp [hres, hv, hj]
    · by_cases hs : j.status = JobStatus.pending
      · rcases ht : findUser db a.technicianId with _ | t
        · have hres : assignJob db a now =
              Except.error (AssignError.notFound ("Technician not found")) := by
            unfold assignJob
            simp [hv, hj, hs, ht]
          simp [hres, hv, hj, hs, ht]
        · cases hact : t.isActive with
          | false =>
            have hres : assignJob db a now =
                Except.error (AssignError.technicianUnavailable ("Technician is not active")) := by
              unfold assignJob
              simp [hv, hj, hs, ht, hact]
            simp [hres, hv, hj, hs, ht, hact]
          | true =>
            by_cases hrole : t.role = "technician"
            · have hres : assignJob db a now = Except.ok
                  { db with
                    jobs := db.jobs.map (fun jj =>
                      if jj.id = a.jobId then
                        { jj with
                          assignedTechnicianId := some a.technicianId
                          assignedBy := some a.assignedBy
                          assignedAt := some a.assignedAt
                          status := JobStatus.assigned
                          updatedAt := now }
                      else jj)
                    assignments := db.assignments ++
                      [{ jobId := a.jobId, technicianId := a.technicianId,
                         assignedBy := a.assignedBy, assignedAt := a.assignedAt,
                         notes := a.notes, assignmentReason := "manual" }] } := by
                unfold assignJob
                simp [hv, hj, hs, ht, hact, hrole]
              simp [hres, hv, hj, hs, ht, hact, hrole]
            · have hres : assignJob db a now =
                  Except.error (AssignError.technicianUnavailable ("User is not a technician")) := by
                unfold assignJob
                simp [hv, hj, hs, ht, hact, hrole]
              simp [hres, hv, hj, hs, ht, hact, hrole]
      · have hres : assignJob db a now =
            Except.error (AssignError.invalidState j.status) := by
          unfold assignJob
          simp [hv, hj, hs]
        simp [hres, hv, hj, hs]

/-- Witness for C1: on the concrete store db2 the successful assignment path
of the theorem applies, certifying that all six checks held there. -/
theorem assignJob_check_order_witness :
    (validateJobAssignment assign1.jobId assign1.technicianId assign1.assignedBy).isValid = true ∧
    (assignJob db2 assign1 60).isOk = true := by
  have h := (assignJob_check_order db2 assign1 60).2.2.2.2.2.2
      ({ jobs := [{ baseJob with
                    assignedTechnicianId := some ("t1")
                    assignedBy := some ("d1")
                    assignedAt := some 50
                    status := JobStatus.assigned
                    updatedAt := 60 }],
         users := db2.users,
         assignments := [{ jobId := "j1", technicianId := "t1",
                           assignedBy := "d1", assignedAt := 50,
                           notes := none, assignmentReason := "manual" }] } : Db)
      (by rfl)
  exact ⟨h.1, by rfl⟩

/-- C6 counterexample: against a technician with skills x at a known location
(every distance 3 km), the pool [jobLow, jobZero] comes back unchanged as
[jobLow, jobZero] — but under the spec's additive score jobZero is worth 100
and jobLow only 25, so the output is NOT sorted by descending score.  The
zero-skills jobZero has NaN as its computed score, and the ECMAScript
comparator treats a NaN difference as a tie, leaving the stable order
untouched. -/
theorem getJobRecommendations_nan_breaks_sort :
    getJobRecommendations ["x"] (some (0, 0)) dist3 [jobLow, jobZero] 2 =
      [jobLow, jobZero] ∧
    specRecommendationScore ["x"] (some (0, 0)) dist3 jobZero = 100 ∧
    specRecommendationScore ["x"] (some (0, 0)) dist3 jobLow = 25 := by
  refine ⟨?_, ?_, ?_⟩
  · unfold getJobRecommendations
    simp only [List.map]
    rw [List.mergeSort_of_sorted (by decide)]
    decide
  · norm_num [specRecommendationScore, specSkillScore, skillMatchCount,
      priorityScore, distanceScore, dist3, jobZero, baseJob]
  · have hne : decide ("plumbing" = "x") = false := by decide
    norm_num [specRecommendationScore, specSkillScore, skillMatchCount,
      priorityScore, distanceScore, dist3, jobLow, baseJob, List.filter, hne]

/-- C6 (amended): for every technician and candidate pool in which every job
requires at least one skill, the computed score of every candidate equals the
spec's additive skillScore + priorityScore + distanceScore, and the result of
getJobRecommendations is exactly the pool stably sorted by descending score
and truncated to at most max entries — the sorted list being a permutation of
the pool — hence also a subset of the pool, of length at most max, in
descending score order.  (A job requiring zero skills instead gets a NaN
score and keeps its stable position, see the counterexample.) -/
theorem getJobRecommendations_scored_sorted_truncated
    (techSkills : List String) (techLoc : Option (ℚ × ℚ))
    (dist : ℚ × ℚ → ℚ × ℚ → ℚ) (candidates : List Job) (maxResults : Nat)
    (h : ∀ j ∈ candidates, j.requirements.skills ≠ []) :
    (∀ j ∈ candidates,
      recommendationScore techSkills techLoc dist j =
        some (specRecommendationScore techSkills techLoc dist j)) ∧
    (getJobRecommendations techSkills techLoc dist candidates maxResults =
      (candidates.mergeSort (fun j1 j2 =>
        decide (specRecommendationScore techSkills techLoc dist j2 ≤
          specRecommendationScore techSkills techLoc dist j1))).take maxResults) ∧
    ((candidates.mergeSort (fun j1 j2 =>
        decide (specRecommendationScore techSkills techLoc dist j2 ≤
          specRecommendationScore techSkills techLoc dist j1))).Perm candidates) ∧
    (getJobRecommendations techSkills techLoc dist candidates maxResults).length
        ≤ maxResults ∧
    (∀ j ∈ getJobRecommendations techSkills techLoc dist candidates maxResults,
      j ∈ candidates) ∧
    (getJobRecommendations techSkills techLoc dist candidates maxResults).Pairwise
      (fun j1 j2 => specRecommendationScore techSkills techLoc dist j2 ≤
        specRecommendationScore techSkills techLoc dist j1) := by
  have hscore : ∀ j ∈ candidates,
      recommendationScore techSkills techLoc dist j =
        some (specRecommendationScore techSkills techLoc dist j) := by
    intro j hj
    have hne : j.requirements.skills ≠ [] := h j hj
    have hlen : (j.requirements.skills.length : ℚ) ≠ 0 := by
      simp only [ne_eq, Nat.cast_eq_zero, List.length_eq_zero]
      exact hne
    unfold recommendationScore jsDiv specRecommendationScore specSkillScore
    rw [if_neg hlen, if_neg hne]
    simp
  have hconv :
      (candidates.map
          (fun j => (j, recommendationScore techSkills techLoc dist j))).mergeSort
        (fun a b => scoreOrder a.2 b.2) =
      (candidates.map
          (fun j => (j, recommendationScore techSkills techLoc dist j))).mergeSort
        (fun a b =>
          decide (specRecommendationScore techSkills techLoc dist b.1 ≤
            specRecommendationScore techSkills techLoc dist a.1)) := by
    have hagree : ∀ p ∈ candidates.map
          (fun j => (j, recommendationScore techSkills techLoc dist j)),
        ∀ q ∈ candidates.map
          (fun j => (j, recommendationScore techSkills techLoc dist j)),
        (fun a b => scoreOrder a.2 b.2) p q =
          (fun a b =>
            decide (specRecommendationScore techSkills techLoc dist b.1 ≤
              specRecommendationScore techSkills techLoc dist a.1)) (id p) (id q) := by
      intro p hp q hq
      obtain ⟨jp, hjp, rfl⟩ := List.mem_map.mp hp
      obtain ⟨jq, hjq, rfl⟩ := List.mem_map.mp hq
      simp only [hscore jp hjp, hscore jq hjq, scoreOrder, id]
    have hmap := @List.map_mergeSort (Job × Option ℚ) (Job × Option ℚ)
      (fun a b => scoreOrder a.2 b.2)
      (fun a b =>
        decide (specRecommendationScore techSkills techLoc dist b.1 ≤
          specRecommendationScore techSkills techLoc dist a.1))
      id
      (candidates.map (fun j => (j, recommendationScore techSkills techLoc dist j)))
      hagree
    simpa using hmap
  have hmapfst :
      ((candidates.map
          (fun j => (j, recommendationScore techSkills techLoc dist j))).mergeSort
        (fun a b =>
          decide (specRecommendationScore techSkills techLoc dist b.1 ≤
            specRecommendationScore techSkills techLoc dist a.1))).map Prod.fst =
      candidates.mergeSort (fun j1 j2 =>
        decide (specRecommendationScore techSkills techLoc dist j2 ≤
          specRecommendationScore techSkills techLoc dist j1)) := by
    have hagree2 : ∀ p ∈ candidates.map
          (fun j => (j, recommendationScore techSkills techLoc dist j)),
        ∀ q ∈ candidates.map
          (fun j => (j, recommendationScore techSkills techLoc dist j)),
        (fun a b : Job × Option ℚ =>
          decide (specRecommendationScore techSkills techLoc dist b.1 ≤
            specRecommendationScore techSkills techLoc dist a.1)) p q =
          (fun j1 j2 =>
            decide (specRecommendationScore techSkills techLoc dist j2 ≤
              specRecommendationScore techSkills techLoc dist j1))
            (Prod.fst p) (Prod.fst q) :=
      fun _ _ _ _ => rfl
    have hm := @List.map_mergeSort (Job × Option ℚ) Job
      (fun a b =>
        decide (specRecommendationScore techSkills techLoc dist b.1 ≤
          specRecommendationScore techSkills techLoc dist a.1))
      (fun j1 j2 =>
        decide (specRecommendationScore techSkills techLoc dist j2 ≤
          specRecommendationScore techSkills techLoc dist j1))
      Prod.fst
      (candidates.map (fun j => (j, recommendationScore techSkills techLoc dist j)))
      hagree2
    rw [hm, List.map_map]
    congr 1
    exact List.map_id _
  have heq : getJobRecommendations techSkills techLoc dist candidates maxResults =
      (candidates.mergeSort (fun j1 j2 =>
        decide (specRecommendationScore techSkills techLoc dist j2 ≤
          specRecommendationScore techSkills techLoc dist j1))).take maxResults := by
    unfold getJobRecommendations
    dsimp only
    rw [hconv, List.map_take, hmapfst]
  refine ⟨hscore, heq, List.mergeSort_perm _ _, ?_, ?_, ?_⟩
  · simp only [getJobRecommendations, List.length_map, List.length_take]
    omega
  · intro j hjmem
    unfold getJobRecommendations at hjmem
    obtain ⟨p, hp, rfl⟩ := List.mem_map.mp hjmem
    have hp2 := List.mem_mergeSort.mp (List.mem_of_mem_take hp)
    obtain ⟨jq, hjq, rfl⟩ := List.mem_map.mp hp2
    exact hjq
  · unfold getJobRecommendations
    rw [List.pairwise_map]
    rw [hconv]
    have htrans : ∀ a b c : Job × Option ℚ,
        decide (specRecommendationScore techSkills techLoc dist b.1 ≤
          specRecommendationScore techSkills techLoc dist a.1) = true →
        decide (specRecommendationScore techSkills techLoc dist c.1 ≤
          specRecommendationScore techSkills techLoc dist b.1) = true →
        decide (specRecommendationScore techSkills techLoc dist c.1 ≤
          specRecommendationScore techSkills techLoc dist a.1) = true := by
      intro a b c hab hbc
      simp only [decide_eq_true_eq] at *
      exact le_trans hbc hab
    have htotal : ∀ a b : Job × Option ℚ,
        (decide (specRecommendationScore techSkills techLoc dist b.1 ≤
            specRecommendationScore techSkills techLoc dist a.1) ||
          decide (specRecommendationScore techSkills techLoc dist a.1 ≤
            specRecommendationScore techSkills techLoc dist b.1)) = true := by
      intro a b
      simp only [Bool.or_eq_true, decide_eq_true_eq]
      exact le_total _ _
    have hsorted := List.sorted_mergeSort htrans htotal
      (candidates.map (fun j => (j, recommendationScore techSkills techLoc dist j)))
    exact List.Pairwise.sublist (List.take_sublist _ _)
      (hsorted.imp (fun hd => of_decide_eq_true hd))

/-- Witness for C6's amended theorem: the spec's worked example — a job
requiring exactly cabling, scored for a technician holding cabling, urgent
priority, 3 km away — scores 50 + 30 + 20 = 100. -/
theorem getJobRecommendations_scored_sorted_truncated_witness :
    jobCabling.requirements.skills ≠ [] ∧
    recommendationScore ["cabling"] (some (0, 0)) dist3 jobCabling =
      some (specRecommendationScore ["cabling"] (some (0, 0)) dist3 jobCabling) ∧
    specRecommendationScore ["cabling"] (some (0, 0)) dist3 jobCabling = 100 := by
  have h := getJobRecommendations_scored_sorted_truncated ["cabling"] (some (0, 0))
      dist3 [jobCabling] 10 (by decide)
  refine ⟨by decide, h.1 jobCabling (by decide), ?_⟩
  norm_num [specRecommendationScore, specSkillScore, skillMatchCount,
    priorityScore, distanceScore, dist3, jobCabling, baseJob, List.filter]
